import Mathlib

/-!
Formal model of the stock-tracking simulator in `src/main.py`.

Modelling conventions:
* Prices and percentages are rationals (`ℚ`); Python's `round(x, 2)` is
  modelled by `round2` (round to the nearest hundredth, halves up — Python
  rounds halves to even, a difference visible only at exact half-cent
  values, which no statement below depends on).
* Timestamps are naturals; `datetime.now().isoformat()` strings compare
  chronologically, so sorting by the string is sorting by the natural.
* Python dicts are association lists in insertion order (`List (Nat × _)`);
  a missing optional dict key is `none`.
* A raised `HTTPException` is `Except.error` carrying the status code;
  every endpoint returns its response together with the store state after
  the call, so "the store is unchanged" is an equation.
* Truthiness tests on floats (`if not execution_price`, `if price`) are
  modelled as the value being `none` or `0`.
-/

namespace StockSim

inductive AlertType where
  | PROFIT
  | LOSS
deriving DecidableEq, Repr

/-- One entry of the `portfolio` dict of `src/main.py`.  The keys
`alert_type`, `alert_triggered_at` and `simulated_current_price` are absent
from the dict written by `buy_stock`; absence is `none`. -/
structure Position where
  symbol : String
  buy_price : ℚ
  bought_at : Nat
  status : String
  alert_sent : Bool
  current_price : ℚ
  percent_change : ℚ
  alert_type : Option AlertType
  alert_triggered_at : Option Nat
  simulated_current_price : Option ℚ
deriving DecidableEq, Repr

/-- One entry of an `alert_history` list, as appended by `monitor_market`.
`tx_tag` models the `transaction_id` key that `get_latest_alerts` writes
into the dict; events appended by the monitor loop do not have it (`none`). -/
structure AlertEvent where
  timestamp : Nat
  type : AlertType
  percent_change : ℚ
  current_price : ℚ
  buy_price : ℚ
  tx_tag : Option Nat
deriving DecidableEq, Repr

abbrev PortfolioStore := List (Nat × Position)

abbrev HistStore := List (Nat × List AlertEvent)

/-- The two global in-memory stores of `src/main.py`. -/
structure St where
  portfolio : PortfolioStore
  alert_history : HistStore
deriving DecidableEq, Repr

/-- `WATCHLIST` of `src/main.py` line 26, verbatim (including the comma
typo in the third symbol). -/
def WATCHLIST : List String := ["RELIANCE.NS", "TCS.NS", "INF,NS", "HDFCBANK.NS"]

def MONITORING_INTERVAL : Nat := 5

/-- Python `str.upper()` (the symbols involved are ASCII, where
`Char.toUpper` agrees with Python). -/
def pyUpper (s : String) : String := ⟨s.data.map Char.toUpper⟩

/-- Python `round(x, 2)`. -/
def round2 (q : ℚ) : ℚ := ((round (q * 100) : ℤ) : ℚ) / 100

/-- `((current_price - buy_price) / buy_price) * 100` as computed at
`src/main.py` lines 123, 279 and 348. -/
def pchange (buy_price current_price : ℚ) : ℚ :=
  ((current_price - buy_price) / buy_price) * 100

/-- The raw data the four fallback strategies of `get_live_price` see for
one symbol.  A strategy whose lookup raises or finds no field is `none`. -/
structure ProviderData where
  fast_last_price : Option ℚ
  info_currentPrice : Option ℚ
  info_regularMarketPrice : Option ℚ
  hist_1m_lastClose : Option ℚ
  hist_1d_lastClose : Option ℚ

/-- Method 4 of `get_live_price` (daily history close). -/
def glpMethod4 (d : ProviderData) : Option ℚ :=
  match d.hist_1d_lastClose with
  | some p => if p > 0 then some (round2 p) else none
  | none => none

/-- Method 3 of `get_live_price` (minute-history close). -/
def glpMethod3 (d : ProviderData) : Option ℚ :=
  match d.hist_1m_lastClose with
  | some p => if p > 0 then some (round2 p) else glpMethod4 d
  | none => glpMethod4 d

/-- The `elif 'regularMarketPrice'` branch of method 2.  The Python guard
`info_dict['regularMarketPrice']` is truthiness, i.e. present and nonzero. -/
def glpMethod2b (d : ProviderData) : Option ℚ :=
  match d.info_regularMarketPrice with
  | some r => if r ≠ 0 then (if r > 0 then some (round2 r) else glpMethod3 d) else glpMethod3 d
  | none => glpMethod3 d

/-- Method 2 of `get_live_price` (`ticker.info`): `currentPrice` if present
and truthy, else `regularMarketPrice`; note that a present but nonpositive
`currentPrice` skips the `elif` and falls through to method 3. -/
def glpMethod2 (d : ProviderData) : Option ℚ :=
  match d.info_currentPrice with
  | some c => if c ≠ 0 then (if c > 0 then some (round2 c) else glpMethod3 d) else glpMethod2b d
  | none => glpMethod2b d

/-- `get_live_price` of `src/main.py` lines 37-90: try the strategies in
order, accept the first strictly positive price, round it to 2 decimals;
exhaustion yields `none`. -/
def get_live_price (d : ProviderData) : Option ℚ :=
  match d.fast_last_price with
  | some p => if p > 0 then some (round2 p) else glpMethod2 d
  | none => glpMethod2 d

/-- The classification at `src/main.py` lines 134-139: `alert_type` is
PROFIT when `percent_change >= 5.0`, LOSS when `percent_change <= -5.0`,
else `None`. -/
def classify (pc : ℚ) : Option AlertType :=
  if pc ≥ 5 then some AlertType.PROFIT
  else if pc ≤ -5 then some AlertType.LOSS
  else none

/-- Price resolution at `src/main.py` lines 113-117: the simulated override
if present, else a live lookup for the position's symbol.  `live` is the
tick's environment: what `get_live_price` returns per symbol. -/
def resolvePrice (live : String → Option ℚ) (pos : Position) : Option ℚ :=
  match pos.simulated_current_price with
  | some p => some p
  | none => live pos.symbol

/-- The update the body of the `monitor_market` loop performs on one
position record (`src/main.py` lines 106-147): skip non-ACTIVE, skip when
no price resolves, otherwise store the price and rounded percent change,
and on a classified movement with `alert_sent` still false set the alert
flags. -/
def tickPos (live : String → Option ℚ) (now : Nat) (pos : Position) : Position :=
  if pos.status ≠ "ACTIVE" then pos
  else
    match resolvePrice live pos with
    | none => pos
    | some cp =>
      let pc := pchange pos.buy_price cp
      let pos1 := { pos with current_price := cp, percent_change := round2 pc }
      match classify pc with
      | some t =>
        if pos.alert_sent then pos1
        else { pos1 with alert_sent := true, alert_type := some t, alert_triggered_at := some now }
      | none => pos1

/-- The alert event the body of the `monitor_market` loop appends for one
position (`src/main.py` lines 142-158), `none` when it appends nothing. -/
def tickEvent (live : String → Option ℚ) (now : Nat) (pos : Position) : Option AlertEvent :=
  if pos.status ≠ "ACTIVE" then none
  else
    match resolvePrice live pos with
    | none => none
    | some cp =>
      let pc := pchange pos.buy_price cp
      match classify pc with
      | some t =>
        if pos.alert_sent then none
        else some { timestamp := now, type := t, percent_change := round2 pc,
                    current_price := cp, buy_price := pos.buy_price, tx_tag := none }
      | none => none

/-- History lookup with the dict default used by the monitor
(`alert_history[tx_id]` after `if tx_id not in alert_history: ... = []`):
a missing key reads as the empty list. -/
def histGet (h : HistStore) (k : Nat) : List AlertEvent :=
  match h with
  | [] => []
  | e :: rest => if e.1 = k then e.2 else histGet rest k

/-- `src/main.py` lines 150-158: create the key if absent (new dict keys go
to the end, in insertion order) and append the event to its list. -/
def histAppend (h : HistStore) (k : Nat) (ev : AlertEvent) : HistStore :=
  match h with
  | [] => [(k, [ev])]
  | e :: rest => if e.1 = k then (e.1, e.2 ++ [ev]) :: rest else e :: histAppend rest k ev

/-- The `alert_history` updates of one full pass of the `monitor_market`
loop, entry by entry in iteration order. -/
def tickHist (live : String → Option ℚ) (now : Nat) (l : PortfolioStore) (h : HistStore) :
    HistStore :=
  match l with
  | [] => h
  | e :: rest =>
    tickHist live now rest
      (match tickEvent live now e.2 with
       | some ev => histAppend h e.1 ev
       | none => h)

/-- `monitor_market` of `src/main.py` lines 93-158: a no-op on an empty
portfolio, otherwise every entry's position is updated in place and the
emitted events are appended to the history.  Each loop iteration touches
only its own entry and its own history key, so the sequential loop is the
map on positions together with the entry-by-entry history fold. -/
def monitor_market (live : String → Option ℚ) (now : Nat) (st : St) : St :=
  if st.portfolio.isEmpty then st
  else
    { portfolio := st.portfolio.map (fun e => (e.1, tickPos live now e.2)),
      alert_history := tickHist live now st.portfolio st.alert_history }

/-- The dict written by `buy_stock` at `src/main.py` lines 249-257. -/
def newPosition (sym : String) (p : ℚ) (now : Nat) : Position :=
  { symbol := sym, buy_price := p, bought_at := now, status := "ACTIVE",
    alert_sent := false, current_price := p, percent_change := 0,
    alert_type := none, alert_triggered_at := none, simulated_current_price := none }

/-- `buy_stock` of `src/main.py` lines 229-266.  `lookup` is what
`get_live_price` returned for the (uppercased) symbol; `if not
execution_price` fails on `None` and on `0.0`.  Returns the transaction id
(or the HTTP error code) together with the resulting store. -/
def buy_stock (lookup : Option ℚ) (now : Nat) (symbol : String) (st : St) :
    Except Nat Nat × St :=
  let sym := pyUpper symbol
  if sym ∈ WATCHLIST then
    match lookup with
    | none => (Except.error 503, st)
    | some p =>
      if p = 0 then (Except.error 503, st)
      else
        let txId := st.portfolio.length + 1
        (Except.ok txId, { st with portfolio := st.portfolio ++ [(txId, newPosition sym p now)] })
  else (Except.error 400, st)

/-- `portfolio[transaction_id]` presence and lookup. -/
def pfGet (l : PortfolioStore) (k : Nat) : Option Position :=
  match l with
  | [] => none
  | e :: rest => if e.1 = k then some e.2 else pfGet rest k

/-- In-place mutation of the dict value at one key (keys and their order
are untouched). -/
def pfUpdate (l : PortfolioStore) (k : Nat) (f : Position → Position) : PortfolioStore :=
  match l with
  | [] => []
  | e :: rest => (if e.1 = k then (e.1, f e.2) else e) :: pfUpdate rest k f

/-- The enriched copy `view_portfolio` builds (`src/main.py` lines 268-285):
for each ACTIVE position a fresh live lookup (ignoring any simulated
override) refreshes `current_price` and `percent_change` on a copy; a
falsy (absent or zero) price leaves the copy unenriched.  The store itself
is not written. -/
def view_portfolio (live : String → Option ℚ) (st : St) : PortfolioStore :=
  st.portfolio.map (fun e =>
    if e.2.status = "ACTIVE" then
      match live e.2.symbol with
      | some cp =>
        if cp ≠ 0 then
          (e.1, { e.2 with current_price := cp,
                           percent_change := round2 (pchange e.2.buy_price cp) })
        else e
      | none => e
    else e)

/-- `reset_alert` of `src/main.py` lines 314-324: 404 on an unknown id,
otherwise clear `alert_sent` and pop `alert_type`, `alert_triggered_at`. -/
def reset_alert (txId : Nat) (st : St) : Except Nat Unit × St :=
  match pfGet st.portfolio txId with
  | none => (Except.error 404, st)
  | some _ =>
    (Except.ok (),
     { st with portfolio := pfUpdate st.portfolio txId (fun pos =>
         { pos with alert_sent := false, alert_type := none, alert_triggered_at := none }) })

/-- `simulate_price_movement` of `src/main.py` lines 331-356: 404 on an
unknown id, otherwise store the override, clear `alert_sent`, and report
the expected (rounded) percent change. -/
def simulate_price_movement (txId : Nat) (simPrice : ℚ) (st : St) : Except Nat ℚ × St :=
  match pfGet st.portfolio txId with
  | none => (Except.error 404, st)
  | some pos =>
    (Except.ok (round2 (pchange pos.buy_price simPrice)),
     { st with portfolio := pfUpdate st.portfolio txId (fun p =>
         { p with simulated_current_price := some simPrice, alert_sent := false }) })

/-- `clear_simulation` of `src/main.py` lines 358-365: 404 on an unknown
id, otherwise pop the override. -/
def clear_simulation (txId : Nat) (st : St) : Except Nat Unit × St :=
  match pfGet st.portfolio txId with
  | none => (Except.error 404, st)
  | some _ =>
    (Except.ok (),
     { st with portfolio := pfUpdate st.portfolio txId (fun p =>
         { p with simulated_current_price := none }) })

/-- The write `latest['transaction_id'] = tx_id` performs on a stored
alert list: `alerts_list[-1]` aliases the stored dict, so the most recent
stored event itself gains the `transaction_id` key. -/
def tagLast (k : Nat) (l : List AlertEvent) : List AlertEvent :=
  match l.getLast? with
  | none => l
  | some ev => l.dropLast ++ [{ ev with tx_tag := some k }]

/-- The comparator of `latest_alerts.sort(key=..., reverse=True)`:
timestamps descending. -/
def tsDesc (a b : AlertEvent) : Bool := decide (b.timestamp ≤ a.timestamp)

/-- What one loop iteration of `get_latest_alerts` contributes to
`latest_alerts`: the most recent event of a nonempty list, with the
`transaction_id` key written in. -/
def latestOf (e : Nat × List AlertEvent) : Option AlertEvent :=
  (e.2.getLast?).map (fun ev => { ev with tx_tag := some e.1 })

/-- `get_latest_alerts` of `src/main.py` lines 295-312: collect each
nonempty transaction's most recent event (writing `transaction_id` into
the stored event through the alias), sort by timestamp descending
(`list.sort` is stable; `mergeSort` with the ≥ comparator models it), and
return the first 10 with the total, together with the store as the call
leaves it. -/
def get_latest_alerts (h : HistStore) : HistStore × List AlertEvent × Nat :=
  let collected := h.filterMap latestOf
  let sorted := collected.mergeSort tsDesc
  (h.map (fun e => (e.1, tagLast e.1 e.2)), sorted.take 10, sorted.length)

/-- The states reachable from process start (`portfolio = {}`,
`alert_history = {}`) by the operations of `src/main.py` that touch the
stores.  A buy's execution price is whatever `get_live_price` returned for
some provider data; a monitor tick's per-symbol prices likewise. -/
inductive Reachable : St → Prop where
  | init : Reachable ⟨[], []⟩
  | buy {st : St} {d : ProviderData} {now : Nat} {sym : String} {tx : Nat} {st' : St} :
      Reachable st → buy_stock (get_live_price d) now sym st = (Except.ok tx, st') →
      Reachable st'
  | tick {st : St} {env : String → ProviderData} {now : Nat} :
      Reachable st → Reachable (monitor_market (fun s => get_live_price (env s)) now st)
  | reset {st : St} {tx : Nat} {st' : St} :
      Reachable st → reset_alert tx st = (Except.ok (), st') → Reachable st'
  | simulate {st : St} {tx : Nat} {p : ℚ} {pc : ℚ} {st' : St} :
      Reachable st → simulate_price_movement tx p st = (Except.ok pc, st') → Reachable st'
  | clearSim {st : St} {tx : Nat} {st' : St} :
      Reachable st → clear_simulation tx st = (Except.ok (), st') → Reachable st'
  | latest {st : St} :
      Reachable st → Reachable { st with alert_history := (get_latest_alerts st.alert_history).1 }

/-! ### Store algebra -/

theorem histGet_histAppend_self (h : HistStore) (k : Nat) (ev : AlertEvent) :
    histGet (histAppend h k ev) k = histGet h k ++ [ev] := by
  induction h with
  | nil => simp [histAppend, histGet]
  | cons e rest ih =>
    by_cases hk : e.1 = k
    · simp [histAppend, histGet, hk]
    · simp [histAppend, histGet, hk, ih]

theorem histGet_histAppend_ne (h : HistStore) {k' k : Nat} (ev : AlertEvent) (hne : k' ≠ k) :
    histGet (histAppend h k' ev) k = histGet h k := by
  induction h with
  | nil => simp [histAppend, histGet, hne]
  | cons e rest ih =>
    by_cases hk : e.1 = k'
    · simp [histAppend, histGet, hk, hne]
    · by_cases hk2 : e.1 = k <;> simp [histAppend, histGet, hk, hk2, Ne.symm hne, ih]

theorem histGet_tickHist_notmem (live : String → Option ℚ) (now : Nat)
    {l : PortfolioStore} (h : HistStore) {k : Nat} (hk : k ∉ l.map Prod.fst) :
    histGet (tickHist live now l h) k = histGet h k := by
  induction l generalizing h with
  | nil => rfl
  | cons e rest ih =>
    simp only [List.map_cons, List.mem_cons] at hk
    push_neg at hk
    cases hev : tickEvent live now e.2 with
    | none => simpa [tickHist, hev] using ih _ hk.2
    | some ev =>
      rw [show tickHist live now (e :: rest) h
            = tickHist live now rest (histAppend h e.1 ev) by simp [tickHist, hev]]
      rw [ih _ hk.2, histGet_histAppend_ne _ _ (fun he => hk.1 he.symm)]

theorem histGet_tickHist_mem (live : String → Option ℚ) (now : Nat)
    {l : PortfolioStore} (h : HistStore) {k : Nat} {pos : Position}
    (hnd : (l.map Prod.fst).Nodup) (hmem : (k, pos) ∈ l) :
    histGet (tickHist live now l h) k
      = histGet h k ++ (tickEvent live now pos).toList := by
  induction l generalizing h with
  | nil => cases hmem
  | cons e rest ih =>
    simp only [List.map_cons, List.nodup_cons] at hnd
    rcases List.mem_cons.mp hmem with heq | hrest
    · subst heq
      have hnot : k ∉ rest.map Prod.fst := hnd.1
      cases hev : tickEvent live now pos with
      | none =>
        rw [show tickHist live now ((k, pos) :: rest) h = tickHist live now rest h by
              simp [tickHist, hev]]
        rw [histGet_tickHist_notmem live now h hnot]
        simp
      | some ev =>
        rw [show tickHist live now ((k, pos) :: rest) h
              = tickHist live now rest (histAppend h k ev) by simp [tickHist, hev]]
        rw [histGet_tickHist_notmem live now _ hnot, histGet_histAppend_self]
        rfl
    · have hke : e.1 ≠ k := by
        intro he
        exact hnd.1 (he ▸ List.mem_map_of_mem Prod.fst hrest)
      cases hev : tickEvent live now e.2 with
      | none => simpa [tickHist, hev] using ih _ hnd.2 hrest
      | some ev =>
        rw [show tickHist live now (e :: rest) h
              = tickHist live now rest (histAppend h e.1 ev) by simp [tickHist, hev]]
        rw [ih _ hnd.2 hrest, histGet_histAppend_ne _ _ hke]

theorem pfGet_mem {l : PortfolioStore} {k : Nat} {pos : Position}
    (hget : pfGet l k = some pos) : (k, pos) ∈ l := by
  induction l with
  | nil => cases hget
  | cons e rest ih =>
    by_cases hk : e.1 = k
    · simp only [pfGet, hk, if_pos] at hget
      cases hget
      exact List.mem_cons.mpr (Or.inl (by rw [← hk]))
    · simp only [pfGet, hk, if_neg, not_false_iff] at hget
      exact List.mem_cons.mpr (Or.inr (ih hget))

theorem mem_pfGet {l : PortfolioStore} {k : Nat} {pos : Position}
    (hnd : (l.map Prod.fst).Nodup) (hmem : (k, pos) ∈ l) : pfGet l k = some pos := by
  induction l with
  | nil => cases hmem
  | cons e rest ih =>
    simp only [List.map_cons, List.nodup_cons] at hnd
    rcases List.mem_cons.mp hmem with heq | hrest
    · subst heq
      simp [pfGet]
    · have hke : e.1 ≠ k := by
        intro he
        exact hnd.1 (he ▸ List.mem_map_of_mem Prod.fst hrest)
      simp [pfGet, hke, ih hnd.2 hrest]

theorem pfGet_map (l : PortfolioStore) (k : Nat) (f : Position → Position) :
    pfGet (l.map (fun e => (e.1, f e.2))) k = (pfGet l k).map f := by
  induction l with
  | nil => rfl
  | cons e rest ih => by_cases hk : e.1 = k <;> simp [pfGet, hk, ih]

theorem pfGet_pfUpdate_self (l : PortfolioStore) (k : Nat) (f : Position → Position) :
    pfGet (pfUpdate l k f) k = (pfGet l k).map f := by
  induction l with
  | nil => rfl
  | cons e rest ih =>
    by_cases hk : e.1 = k <;> simp [pfUpdate, pfGet, hk, ih]

theorem map_fst_pfUpdate (l : PortfolioStore) (k : Nat) (f : Position → Position) :
    (pfUpdate l k f).map Prod.fst = l.map Prod.fst := by
  induction l with
  | nil => rfl
  | cons e rest ih =>
    by_cases hk : e.1 = k <;> simp [pfUpdate, hk, ih]

theorem map_fst_keyed (l : PortfolioStore) (f : Position → Position) :
    (l.map (fun e => (e.1, f e.2))).map Prod.fst = l.map Prod.fst := by
  induction l with
  | nil => rfl
  | cons e rest ih => simp [ih]

theorem pfGet_isEmpty_false {l : PortfolioStore} {k : Nat} {pos : Position}
    (hget : pfGet l k = some pos) : l.isEmpty = false := by
  cases l with
  | nil => cases hget
  | cons e rest => rfl

theorem monitor_portfolio (live : String → Option ℚ) (now : Nat) {st : St}
    (h : st.portfolio.isEmpty = false) :
    (monitor_market live now st).portfolio
      = st.portfolio.map (fun e => (e.1, tickPos live now e.2)) := by
  simp [monitor_market, h]

theorem monitor_hist (live : String → Option ℚ) (now : Nat) {st : St}
    (h : st.portfolio.isEmpty = false) :
    (monitor_market live now st).alert_history
      = tickHist live now st.portfolio st.alert_history := by
  simp [monitor_market, h]

theorem tick_pfGet (live : String → Option ℚ) (now : Nat) {st : St} {k : Nat} {pos : Position}
    (hget : pfGet st.portfolio k = some pos) :
    pfGet (monitor_market live now st).portfolio k = some (tickPos live now pos) := by
  rw [monitor_portfolio live now (pfGet_isEmpty_false hget), pfGet_map, hget]
  rfl

theorem tick_histGet (live : String → Option ℚ) (now : Nat) {st : St} {k : Nat} {pos : Position}
    (hnd : (st.portfolio.map Prod.fst).Nodup)
    (hget : pfGet st.portfolio k = some pos) :
    histGet (monitor_market live now st).alert_history k
      = histGet st.alert_history k ++ (tickEvent live now pos).toList := by
  rw [monitor_hist live now (pfGet_isEmpty_false hget)]
  exact histGet_tickHist_mem live now _ hnd (pfGet_mem hget)

/-! ### Facts about one loop-body step -/

theorem tickPos_fields (live : String → Option ℚ) (now : Nat) (pos : Position) :
    (tickPos live now pos).buy_price = pos.buy_price ∧
    (tickPos live now pos).symbol = pos.symbol ∧
    (tickPos live now pos).status = pos.status ∧
    (tickPos live now pos).simulated_current_price = pos.simulated_current_price := by
  by_cases h1 : pos.status = "ACTIVE"
  · cases hres : resolvePrice live pos with
    | none => simp [tickPos, h1, hres]
    | some cp =>
      cases hcls : classify (pchange pos.buy_price cp) with
      | none => simp [tickPos, h1, hres, hcls]
      | some t => cases hs : pos.alert_sent <;> simp [tickPos, h1, hres, hcls, hs]
  · simp [tickPos, h1]

theorem resolvePrice_congr (live : String → Option ℚ) {p1 p2 : Position}
    (h1 : p1.simulated_current_price = p2.simulated_current_price)
    (h2 : p1.symbol = p2.symbol) : resolvePrice live p1 = resolvePrice live p2 := by
  unfold resolvePrice
  rw [h1, h2]

theorem tickPos_alert_sent_of_classified {live : String → Option ℚ} {now : Nat}
    {pos : Position} {cp : ℚ} {t : AlertType}
    (hact : pos.status = "ACTIVE") (hres : resolvePrice live pos = some cp)
    (hcls : classify (pchange pos.buy_price cp) = some t) :
    (tickPos live now pos).alert_sent = true := by
  cases hs : pos.alert_sent <;> simp [tickPos, hact, hres, hcls, hs]

theorem tickPos_skip {live : String → Option ℚ} {now : Nat} {pos : Position}
    (hact : pos.status = "ACTIVE") (hres : resolvePrice live pos = none) :
    tickPos live now pos = pos := by
  simp [tickPos, hact, hres]

theorem tickEvent_skip {live : String → Option ℚ} {now : Nat} {pos : Position}
    (hact : pos.status = "ACTIVE") (hres : resolvePrice live pos = none) :
    tickEvent live now pos = none := by
  simp [tickEvent, hact, hres]

theorem tickEvent_of_sent {live : String → Option ℚ} {now : Nat} {pos : Position} {cp : ℚ}
    {t : AlertType} (hact : pos.status = "ACTIVE") (hres : resolvePrice live pos = some cp)
    (hcls : classify (pchange pos.buy_price cp) = some t) (hs : pos.alert_sent = true) :
    tickEvent live now pos = none := by
  simp [tickEvent, hact, hres, hcls, hs]

theorem tickEvent_of_not_sent {live : String → Option ℚ} {now : Nat} {pos : Position} {cp : ℚ}
    {t : AlertType} (hact : pos.status = "ACTIVE") (hres : resolvePrice live pos = some cp)
    (hcls : classify (pchange pos.buy_price cp) = some t) (hs : pos.alert_sent = false) :
    tickEvent live now pos
      = some { timestamp := now, type := t, percent_change := round2 (pchange pos.buy_price cp),
               current_price := cp, buy_price := pos.buy_price, tx_tag := none } := by
  simp [tickEvent, hact, hres, hcls, hs]

theorem tickPos_of_not_sent {live : String → Option ℚ} {now : Nat} {pos : Position} {cp : ℚ}
    {t : AlertType} (hact : pos.status = "ACTIVE") (hres : resolvePrice live pos = some cp)
    (hcls : classify (pchange pos.buy_price cp) = some t) (hs : pos.alert_sent = false) :
    tickPos live now pos
      = { pos with current_price := cp, percent_change := round2 (pchange pos.buy_price cp),
                   alert_sent := true, alert_type := some t, alert_triggered_at := some now } := by
  simp [tickPos, hact, hres, hcls, hs]

theorem tickPos_of_sent {live : String → Option ℚ} {now : Nat} {pos : Position} {cp : ℚ}
    {t : AlertType} (hact : pos.status = "ACTIVE") (hres : resolvePrice live pos = some cp)
    (hcls : classify (pchange pos.buy_price cp) = some t) (hs : pos.alert_sent = true) :
    tickPos live now pos
      = { pos with current_price := cp,
                   percent_change := round2 (pchange pos.buy_price cp) } := by
  simp [tickPos, hact, hres, hcls, hs]

theorem tick_keys (live : String → Option ℚ) (now : Nat) (st : St) :
    (monitor_market live now st).portfolio.map Prod.fst
      = st.portfolio.map Prod.fst := by
  cases h : st.portfolio.isEmpty
  · rw [monitor_portfolio live now h, map_fst_keyed]
  · simp [monitor_market, h]

/-! ### Sample values used by witnesses -/

/-- A live-lookup environment in which no symbol has a price. -/
def sampleLiveNone : String → Option ℚ := fun _ => none

/-- A position bought at 100 with a simulated override of 105 injected,
alert not yet fired. -/
def samplePos105 : Position :=
  { symbol := "TCS.NS", buy_price := 100, bought_at := 0, status := "ACTIVE",
    alert_sent := false, current_price := 100, percent_change := 0,
    alert_type := none, alert_triggered_at := none, simulated_current_price := some 105 }

/-- `samplePos105` after its PROFIT alert has fired. -/
def samplePosAlerted : Position :=
  { samplePos105 with alert_sent := true, current_price := 105, percent_change := 5,
                      alert_type := some AlertType.PROFIT, alert_triggered_at := some 1 }

/-- An alert event as the monitor loop appends it. -/
def sampleEvent0 : AlertEvent :=
  { timestamp := 3, type := AlertType.PROFIT, percent_change := 5, current_price := 105,
    buy_price := 100, tx_tag := none }

/-! ### Claims -/

/-- C2: the evaluator classifies PROFIT iff the percent change
`(current_price − buy_price) / buy_price × 100` is ≥ +5, LOSS iff it is
≤ −5, and none otherwise; exactly ±5 counts as a crossing. -/
theorem classify_threshold_inclusive (buy_price current_price : ℚ) :
    (classify (pchange buy_price current_price) = some AlertType.PROFIT
       ↔ 5 ≤ pchange buy_price current_price) ∧
    (classify (pchange buy_price current_price) = some AlertType.LOSS
       ↔ pchange buy_price current_price ≤ -5) ∧
    (classify (pchange buy_price current_price) = none
       ↔ pchange buy_price current_price < 5 ∧ -5 < pchange buy_price current_price) ∧
    classify 5 = some AlertType.PROFIT ∧ classify (-5) = some AlertType.LOSS := by
  have key : ∀ pc : ℚ,
      (classify pc = some AlertType.PROFIT ↔ 5 ≤ pc) ∧
      (classify pc = some AlertType.LOSS ↔ pc ≤ -5) ∧
      (classify pc = none ↔ pc < 5 ∧ -5 < pc) := by
    intro pc
    by_cases h1 : 5 ≤ pc
    · have h2 : ¬pc ≤ -5 := by linarith
      simp [classify, h1, h2]
    · by_cases h2 : pc ≤ -5
      · simp [classify, h1, h2]
      · simp [classify, h1, h2]
        exact ⟨by linarith, by linarith⟩
  refine ⟨(key _).1, (key _).2.1, (key _).2.2, ?_, ?_⟩
  · exact (key 5).1.mpr le_rfl
  · exact (key (-5)).2.1.mpr le_rfl

/-- C5 counterexample: the claim "buy fails with a 400 client error for
every symbol not in the watchlist ... no position is created" is false as
stated: the handler uppercases the symbol first, so buying
`"reliance.ns"` — a symbol that is not in the watchlist — succeeds (given
a price) and creates a position. -/
theorem buy_lowercase_symbol_succeeds :
    "reliance.ns" ∉ WATCHLIST ∧
    (buy_stock (some 100) 0 "reliance.ns" ⟨[], []⟩).1 = Except.ok 1 ∧
    (buy_stock (some 100) 0 "reliance.ns" ⟨[], []⟩).2.portfolio ≠ [] := by
  refine ⟨by decide, rfl, ?_⟩
  rw [show (buy_stock (some 100) 0 "reliance.ns" ⟨[], []⟩).2.portfolio
        = [(1, newPosition (pyUpper "reliance.ns") 100 0)] from rfl]
  simp

/-- C5 (amended): buy fails with 400 for every symbol whose uppercased
form is not in the watchlist, and — for a symbol that does normalise into
the watchlist — with 503 whenever the price lookup yields no price (or
the falsy price 0); in each failure case the store is returned unchanged. -/
theorem buy_error_paths (lookup : Option ℚ) (now : Nat) (symbol : String) (st : St) :
    (pyUpper symbol ∉ WATCHLIST → buy_stock lookup now symbol st = (Except.error 400, st)) ∧
    (pyUpper symbol ∈ WATCHLIST → lookup = none →
       buy_stock lookup now symbol st = (Except.error 503, st)) ∧
    (pyUpper symbol ∈ WATCHLIST → lookup = some 0 →
       buy_stock lookup now symbol st = (Except.error 503, st)) := by
  refine ⟨fun h => by simp [buy_stock, h], fun h hl => by simp [buy_stock, h, hl],
    fun h hl => by simp [buy_stock, h, hl]⟩

/-- C5 witness: a non-watchlist symbol gets 400 and an unavailable price
gets 503, both leaving the empty store unchanged. -/
theorem buy_error_paths_witness :
    buy_stock (some 100) 0 "XYZ" ⟨[], []⟩ = (Except.error 400, (⟨[], []⟩ : St)) ∧
    buy_stock none 0 "TCS.NS" ⟨[], []⟩ = (Except.error 503, (⟨[], []⟩ : St)) :=
  ⟨(buy_error_paths (some 100) 0 "XYZ" ⟨[], []⟩).1 (by decide),
   (buy_error_paths none 0 "TCS.NS" ⟨[], []⟩).2.1 (by decide) rfl⟩

/-- C6: every successful buy appends the new position at transaction id
`len(portfolio) + 1`, with status ACTIVE, `alert_sent = false`,
`percent_change = 0` and `buy_price = current_price =` the looked-up
execution price; the alert history is untouched. -/
theorem buy_success_creates_position (p : ℚ) (now : Nat) (symbol : String)
    (st : St) (txId : Nat) (st' : St)
    (h : buy_stock (some p) now symbol st = (Except.ok txId, st')) :
    txId = st.portfolio.length + 1 ∧
    st'.portfolio = st.portfolio ++ [(txId, newPosition (pyUpper symbol) p now)] ∧
    st'.alert_history = st.alert_history ∧
    (newPosition (pyUpper symbol) p now).status = "ACTIVE" ∧
    (newPosition (pyUpper symbol) p now).alert_sent = false ∧
    (newPosition (pyUpper symbol) p now).percent_change = 0 ∧
    (newPosition (pyUpper symbol) p now).buy_price = p ∧
    (newPosition (pyUpper symbol) p now).current_price = p := by
  by_cases hw : pyUpper symbol ∈ WATCHLIST
  · by_cases hp : p = 0
    · simp [buy_stock, hw, hp] at h
    · simp only [buy_stock, hw, if_pos, if_neg hp, Prod.mk.injEq] at h
      obtain ⟨h1, h2⟩ := h
      cases h1
      refine ⟨rfl, ?_, ?_, rfl, rfl, rfl, rfl, rfl⟩
      · rw [← h2]
      · rw [← h2]
  · simp [buy_stock, hw] at h

/-- C6 witness: buying TCS.NS at price 100 on the empty store stores
position 1 as specified. -/
theorem buy_success_creates_position_witness :
    (1 : Nat) = (⟨[], []⟩ : St).portfolio.length + 1 ∧
    (⟨[(1, newPosition "TCS.NS" 100 0)], []⟩ : St).portfolio
      = (⟨[], []⟩ : St).portfolio ++ [(1, newPosition (pyUpper "TCS.NS") 100 0)] ∧
    (⟨[(1, newPosition "TCS.NS" 100 0)], []⟩ : St).alert_history
      = (⟨[], []⟩ : St).alert_history ∧
    (newPosition (pyUpper "TCS.NS") 100 0).status = "ACTIVE" ∧
    (newPosition (pyUpper "TCS.NS") 100 0).alert_sent = false ∧
    (newPosition (pyUpper "TCS.NS") 100 0).percent_change = 0 ∧
    (newPosition (pyUpper "TCS.NS") 100 0).buy_price = 100 ∧
    (newPosition (pyUpper "TCS.NS") 100 0).current_price = 100 :=
  buy_success_creates_position 100 0 "TCS.NS" ⟨[], []⟩ 1
    ⟨[(1, newPosition "TCS.NS" 100 0)], []⟩ rfl

/-- `samplePos105` without the simulated override (as a plain buy leaves
it). -/
def samplePosFresh : Position := { samplePos105 with simulated_current_price := none }

/-- A store with one alerted position and its one recorded alert event. -/
def stW7 : St := ⟨[(1, samplePosAlerted)], [(1, [sampleEvent0])]⟩

/-- A store with one fresh (never-alerted, not simulated) position. -/
def stW9 : St := ⟨[(1, samplePosFresh)], []⟩

/-- C7: reset-alert 404s on an unknown id leaving the store unchanged; on
a known id it clears `alert_sent`, `alert_type` and `alert_triggered_at`
(touching nothing else and no history); and after a reset the next tick
whose resolved price classifies appends a fresh alert event to that
transaction's history, after all prior events. -/
theorem reset_alert_spec (txId now : Nat) (live : String → Option ℚ) (st : St) :
    (pfGet st.portfolio txId = none → reset_alert txId st = (Except.error 404, st)) ∧
    (∀ pos, pfGet st.portfolio txId = some pos →
       (reset_alert txId st).1 = Except.ok () ∧
       (reset_alert txId st).2.alert_history = st.alert_history ∧
       pfGet (reset_alert txId st).2.portfolio txId
         = some { pos with alert_sent := false, alert_type := none, alert_triggered_at := none }) ∧
    (∀ pos cp t, (st.portfolio.map Prod.fst).Nodup →
       pfGet st.portfolio txId = some pos → pos.status = "ACTIVE" →
       resolvePrice live pos = some cp →
       classify (pchange pos.buy_price cp) = some t →
       histGet (monitor_market live now (reset_alert txId st).2).alert_history txId
         = histGet st.alert_history txId
           ++ [{ timestamp := now, type := t,
                 percent_change := round2 (pchange pos.buy_price cp),
                 current_price := cp, buy_price := pos.buy_price, tx_tag := none }]) := by
  refine ⟨fun h => by simp [reset_alert, h],
    fun pos h => ?_, fun pos cp t hnd h hact hres hcls => ?_⟩
  · refine ⟨by simp [reset_alert, h], by simp [reset_alert, h], ?_⟩
    simp [reset_alert, h, pfGet_pfUpdate_self]
  · have hreset : (reset_alert txId st).2
        = { st with portfolio := pfUpdate st.portfolio txId (fun pos =>
              { pos with alert_sent := false, alert_type := none, alert_triggered_at := none }) } := by
      simp [reset_alert, h]
    have hget1 : pfGet (reset_alert txId st).2.portfolio txId
        = some { pos with alert_sent := false, alert_type := none, alert_triggered_at := none } := by
      rw [hreset]
      simp [pfGet_pfUpdate_self, h]
    have hnd1 : ((reset_alert txId st).2.portfolio.map Prod.fst).Nodup := by
      rw [hreset]
      simpa [map_fst_pfUpdate] using hnd
    have hhist1 : (reset_alert txId st).2.alert_history = st.alert_history := by
      rw [hreset]
    rw [tick_histGet live now hnd1 hget1, hhist1,
      @tickEvent_of_not_sent live now
        { pos with alert_sent := false, alert_type := none, alert_triggered_at := none }
        cp t hact hres hcls rfl]
    rfl

/-- C7 witness: on a store holding the already-alerted position 1,
resetting and then ticking at the simulated price 105 appends one new
PROFIT event after the existing history. -/
theorem reset_alert_spec_witness :
    histGet (monitor_market sampleLiveNone 9 (reset_alert 1 stW7).2).alert_history 1
      = histGet stW7.alert_history 1
        ++ [{ timestamp := 9, type := AlertType.PROFIT,
              percent_change := round2 (pchange samplePosAlerted.buy_price 105),
              current_price := 105, buy_price := samplePosAlerted.buy_price,
              tx_tag := none }] :=
  (reset_alert_spec 1 9 sampleLiveNone stW7).2.2 samplePosAlerted 105 AlertType.PROFIT
    (by decide) rfl rfl rfl
    (by norm_num [classify, pchange, samplePosAlerted, samplePos105])

/-- C8: setting a simulated price on a known transaction stores the
override (so the next tick resolves to it) and clears `alert_sent`;
clearing the simulation afterwards removes the override, so the next tick
resolves the price by live lookup of the position's symbol; both
operations 404 on an unknown id leaving the store unchanged. -/
theorem simulate_and_clear_spec (txId : Nat) (p : ℚ) (st : St) (live : String → Option ℚ) :
    (pfGet st.portfolio txId = none →
       simulate_price_movement txId p st = (Except.error 404, st) ∧
       clear_simulation txId st = (Except.error 404, st)) ∧
    (∀ pos, pfGet st.portfolio txId = some pos →
       pfGet (simulate_price_movement txId p st).2.portfolio txId
         = some { pos with simulated_current_price := some p, alert_sent := false } ∧
       resolvePrice live { pos with simulated_current_price := some p, alert_sent := false }
         = some p) ∧
    (∀ pos, pfGet st.portfolio txId = some pos →
       pfGet (clear_simulation txId (simulate_price_movement txId p st).2).2.portfolio txId
         = some { pos with alert_sent := false, simulated_current_price := none } ∧
       resolvePrice live { pos with alert_sent := false, simulated_current_price := none }
         = live pos.symbol) := by
  refine ⟨fun h => ⟨by simp [simulate_price_movement, h], by simp [clear_simulation, h]⟩,
    fun pos h => ⟨?_, rfl⟩, fun pos h => ⟨?_, rfl⟩⟩
  · simp [simulate_price_movement, h, pfGet_pfUpdate_self]
  · have h1 : pfGet (simulate_price_movement txId p st).2.portfolio txId
        = some { pos with simulated_current_price := some p, alert_sent := false } := by
      simp [simulate_price_movement, h, pfGet_pfUpdate_self]
    simp [clear_simulation, h1, pfGet_pfUpdate_self]

/-- C8 witness: on the sample store, simulating price 110 on transaction 1
stores the override with `alert_sent` cleared, clearing it falls back to
the live lookup, and id 2 404s. -/
theorem simulate_and_clear_spec_witness :
    (simulate_price_movement 2 110 stW7 = (Except.error 404, stW7) ∧
     clear_simulation 2 stW7 = (Except.error 404, stW7)) ∧
    (pfGet (simulate_price_movement 1 110 stW7).2.portfolio 1
       = some { samplePosAlerted with simulated_current_price := some 110, alert_sent := false } ∧
     resolvePrice sampleLiveNone
         { samplePosAlerted with simulated_current_price := some 110, alert_sent := false }
       = some 110) ∧
    (pfGet (clear_simulation 1 (simulate_price_movement 1 110 stW7).2).2.portfolio 1
       = some { samplePosAlerted with alert_sent := false, simulated_current_price := none } ∧
     resolvePrice sampleLiveNone
         { samplePosAlerted with alert_sent := false, simulated_current_price := none }
       = sampleLiveNone samplePosAlerted.symbol) :=
  ⟨(simulate_and_clear_spec 2 110 stW7 sampleLiveNone).1 rfl,
   (simulate_and_clear_spec 1 110 stW7 sampleLiveNone).2.1 samplePosAlerted rfl,
   (simulate_and_clear_spec 1 110 stW7 sampleLiveNone).2.2 samplePosAlerted rfl⟩

/-- C9: an ACTIVE position with no simulated override and no live price is
left entirely unchanged by a monitor tick, and no alert event is appended
for it. -/
theorem monitor_skip_unpriced (live : String → Option ℚ) (now : Nat) {st : St}
    {txId : Nat} {pos : Position}
    (hnd : (st.portfolio.map Prod.fst).Nodup)
    (hget : pfGet st.portfolio txId = some pos)
    (hact : pos.status = "ACTIVE")
    (hsim : pos.simulated_current_price = none)
    (hlive : live pos.symbol = none) :
    pfGet (monitor_market live now st).portfolio txId = some pos ∧
    histGet (monitor_market live now st).alert_history txId
      = histGet st.alert_history txId := by
  have hres : resolvePrice live pos = none := by simp [resolvePrice, hsim, hlive]
  constructor
  · rw [tick_pfGet live now hget, tickPos_skip hact hres]
  · rw [tick_histGet live now hnd hget, tickEvent_skip hact hres]
    simp

/-- C9 witness: a tick on the un-simulated, unpriced sample position leaves
its record and history untouched. -/
theorem monitor_skip_unpriced_witness :
    pfGet (monitor_market sampleLiveNone 4 stW9).portfolio 1 = some samplePosFresh ∧
    histGet (monitor_market sampleLiveNone 4 stW9).alert_history 1
      = histGet stW9.alert_history 1 :=
  monitor_skip_unpriced sampleLiveNone 4 (by decide) rfl rfl rfl rfl

/-- A store with one fresh position carrying the simulated override 105. -/
def stW1 : St := ⟨[(1, samplePos105)], []⟩

/-- C1: on a monitor tick, for an ACTIVE position whose resolved price
classifies, an alert event is appended and `alert_sent` set exactly when
`alert_sent` was false before the tick; when `alert_sent` is already true
the tick only refreshes the price fields and the transaction's history is
unchanged — in particular a second tick at the same resolved price appends
nothing further. -/
theorem monitor_debounce (live : String → Option ℚ) (now now' : Nat) {st : St}
    {txId : Nat} {pos : Position} {cp : ℚ} {t : AlertType}
    (hnd : (st.portfolio.map Prod.fst).Nodup)
    (hget : pfGet st.portfolio txId = some pos)
    (hact : pos.status = "ACTIVE")
    (hres : resolvePrice live pos = some cp)
    (hcls : classify (pchange pos.buy_price cp) = some t) :
    (pos.alert_sent = true →
       histGet (monitor_market live now st).alert_history txId
         = histGet st.alert_history txId ∧
       pfGet (monitor_market live now st).portfolio txId
         = some { pos with
                  current_price := cp,
                  percent_change := round2 (pchange pos.buy_price cp) }) ∧
    (pos.alert_sent = false →
       histGet (monitor_market live now st).alert_history txId
         = histGet st.alert_history txId
           ++ [{ timestamp := now, type := t,
                 percent_change := round2 (pchange pos.buy_price cp),
                 current_price := cp, buy_price := pos.buy_price, tx_tag := none }] ∧
       pfGet (monitor_market live now st).portfolio txId
         = some { pos with
                  current_price := cp,
                  percent_change := round2 (pchange pos.buy_price cp), alert_sent := true,
                  alert_type := some t, alert_triggered_at := some now }) ∧
    histGet (monitor_market live now' (monitor_market live now st)).alert_history txId
      = histGet (monitor_market live now st).alert_history txId := by
  refine ⟨fun hs => ?_, fun hs => ?_, ?_⟩
  · constructor
    · rw [tick_histGet live now hnd hget, tickEvent_of_sent hact hres hcls hs]
      simp
    · rw [tick_pfGet live now hget, tickPos_of_sent hact hres hcls hs]
  · constructor
    · rw [tick_histGet live now hnd hget, tickEvent_of_not_sent hact hres hcls hs]
      rfl
    · rw [tick_pfGet live now hget, tickPos_of_not_sent hact hres hcls hs]
  · have hget1 : pfGet (monitor_market live now st).portfolio txId
        = some (tickPos live now pos) := tick_pfGet live now hget
    have hnd1 : ((monitor_market live now st).portfolio.map Prod.fst).Nodup := by
      rw [tick_keys]
      exact hnd
    obtain ⟨hbp, hsym, hstat, hsim⟩ := tickPos_fields live now pos
    have hact1 : (tickPos live now pos).status = "ACTIVE" := by rw [hstat, hact]
    have hres1 : resolvePrice live (tickPos live now pos) = some cp := by
      rw [resolvePrice_congr live hsim hsym]
      exact hres
    have hcls1 : classify (pchange (tickPos live now pos).buy_price cp) = some t := by
      rw [hbp]
      exact hcls
    have hsent1 : (tickPos live now pos).alert_sent = true :=
      tickPos_alert_sent_of_classified hact hres hcls
    rw [tick_histGet live now' hnd1 hget1, tickEvent_of_sent hact1 hres1 hcls1 hsent1]
    simp

/-- C1 witness: ticking the fresh simulated position at 105 fires one
PROFIT event and marks it sent; a second tick appends nothing more. -/
theorem monitor_debounce_witness :
    (histGet (monitor_market sampleLiveNone 7 stW1).alert_history 1
       = histGet stW1.alert_history 1
         ++ [{ timestamp := 7, type := AlertType.PROFIT,
               percent_change := round2 (pchange samplePos105.buy_price 105),
               current_price := 105, buy_price := samplePos105.buy_price,
               tx_tag := none }] ∧
     pfGet (monitor_market sampleLiveNone 7 stW1).portfolio 1
       = some { samplePos105 with
                current_price := 105,
                percent_change := round2 (pchange samplePos105.buy_price 105),
                alert_sent := true, alert_type := some AlertType.PROFIT,
                alert_triggered_at := some 7 }) ∧
    histGet (monitor_market sampleLiveNone 8 (monitor_market sampleLiveNone 7 stW1)).alert_history 1
      = histGet (monitor_market sampleLiveNone 7 stW1).alert_history 1 :=
  ⟨(@monitor_debounce sampleLiveNone 7 8 stW1 1 samplePos105 105 AlertType.PROFIT
      (by decide) rfl rfl rfl
      (by norm_num [classify, pchange, samplePos105])).2.1 rfl,
   (@monitor_debounce sampleLiveNone 7 8 stW1 1 samplePos105 105 AlertType.PROFIT
      (by decide) rfl rfl rfl
      (by norm_num [classify, pchange, samplePos105])).2.2⟩

/-- C3 fails on the code: `get_latest_alerts` aliases the stored most
recent event (`latest = alerts_list[-1]`) and writes the
`transaction_id` key into it, so after the read the stored event no
longer equals the event as appended by the monitor loop. -/
theorem get_latest_alerts_mutates_store :
    (get_latest_alerts [(1, [sampleEvent0])]).1
      = [(1, [{ sampleEvent0 with tx_tag := some 1 }])] ∧
    { sampleEvent0 with tx_tag := some 1 } ≠ sampleEvent0 ∧
    histGet (get_latest_alerts [(1, [sampleEvent0])]).1 1 ≠ [sampleEvent0] := by
  refine ⟨rfl, ?_, ?_⟩
  · simp [sampleEvent0]
  · rw [show histGet (get_latest_alerts [(1, [sampleEvent0])]).1 1
          = [{ sampleEvent0 with tx_tag := some 1 }] from rfl]
    simp [sampleEvent0]

/-- C10 counterexample: a strategy price of 1/250 (= 0.004) is strictly
positive and accepted, but `round(price, 2)` collapses it to 0, so the
lookup returns a price that is neither absent nor strictly positive. -/
theorem get_live_price_can_return_zero :
    (0 : ℚ) < 1/250 ∧
    get_live_price { fast_last_price := some (1/250), info_currentPrice := none,
                     info_regularMarketPrice := none, hist_1m_lastClose := none,
                     hist_1d_lastClose := none } = some 0 := by
  constructor
  · norm_num
  · norm_num [get_live_price, round2, round_eq]

/-- A history with two transactions, the second alert being newer. -/
def hW4 : HistStore := [(1, [sampleEvent0]), (2, [{ sampleEvent0 with timestamp := 5 }])]

/-- C4: the latest-alerts response has at most 10 entries, each entry is
the most recent event of a distinct transaction (carrying that
transaction's id), and entries are ordered by timestamp descending. -/
theorem get_latest_alerts_spec (h : HistStore) (hnd : (h.map Prod.fst).Nodup) :
    (get_latest_alerts h).2.1.length ≤ 10 ∧
    List.Pairwise (fun a b : AlertEvent => b.timestamp ≤ a.timestamp)
      (get_latest_alerts h).2.1 ∧
    (∀ ev ∈ (get_latest_alerts h).2.1, ∃ tx l e0, (tx, l) ∈ h ∧ l.getLast? = some e0 ∧
       ev = { e0 with tx_tag := some tx }) ∧
    ((get_latest_alerts h).2.1.map AlertEvent.tx_tag).Nodup := by
  have hres : (get_latest_alerts h).2.1 = ((h.filterMap latestOf).mergeSort tsDesc).take 10 := rfl
  have htrans : ∀ a b c : AlertEvent,
      tsDesc a b = true → tsDesc b c = true → tsDesc a c = true := by
    intro a b c hab hbc
    simp only [tsDesc, decide_eq_true_eq] at hab hbc ⊢
    exact le_trans hbc hab
  have htot : ∀ a b : AlertEvent, (tsDesc a b || tsDesc b a) = true := by
    intro a b
    simp only [tsDesc, Bool.or_eq_true, decide_eq_true_eq]
    exact le_total b.timestamp a.timestamp
  refine ⟨?_, ?_, ?_, ?_⟩
  · rw [hres]
    simp only [List.length_take]
    exact min_le_left _ _
  · rw [hres]
    refine List.Pairwise.sublist (List.take_sublist _ _) ?_
    refine (List.sorted_mergeSort htrans htot (h.filterMap latestOf)).imp ?_
    intro a b hab
    simpa [tsDesc, decide_eq_true_eq] using hab
  · rw [hres]
    intro ev hev
    have h1 : ev ∈ (h.filterMap latestOf).mergeSort tsDesc :=
      (List.take_sublist _ _).subset hev
    have h2 : ev ∈ h.filterMap latestOf :=
      (List.mergeSort_perm (h.filterMap latestOf) tsDesc).subset h1
    rcases List.mem_filterMap.mp h2 with ⟨a, ha, hfa⟩
    rcases Option.map_eq_some'.mp hfa with ⟨e0, he0, heq⟩
    exact ⟨a.1, a.2, e0, ha, he0, heq.symm⟩
  · rw [hres]
    have hsub : ∀ hh : HistStore,
        List.Sublist ((hh.filterMap latestOf).map AlertEvent.tx_tag)
          (hh.map (fun e => some e.1)) := by
      intro hh
      induction hh with
      | nil => exact List.Sublist.refl _
      | cons a rest ih =>
        cases hl : a.2.getLast? with
        | none =>
          rw [show (a :: rest).filterMap latestOf = rest.filterMap latestOf from by
                simp [List.filterMap_cons, latestOf, hl]]
          exact ih.cons _
        | some e0 =>
          rw [show (a :: rest).filterMap latestOf
                = { e0 with tx_tag := some a.1 } :: rest.filterMap latestOf from by
                simp [List.filterMap_cons, latestOf, hl]]
          rw [List.map_cons, List.map_cons]
          exact List.Sublist.cons₂ _ ih
    have h0 : (h.map (fun e => some e.1) : List (Option Nat)).Nodup := by
      rw [show h.map (fun e => some e.1) = (h.map Prod.fst).map some from by
            rw [List.map_map]; rfl]
      exact hnd.map (Option.some_injective _)
    have h1 : ((h.filterMap latestOf).map AlertEvent.tx_tag).Nodup := (hsub h).nodup h0
    have h2 : (((h.filterMap latestOf).mergeSort tsDesc).map AlertEvent.tx_tag).Nodup := by
      have hp := (List.mergeSort_perm (h.filterMap latestOf) tsDesc).map AlertEvent.tx_tag
      exact hp.symm.nodup h1
    rw [List.map_take]
    exact (List.take_sublist _ _).nodup h2

/-- C4 witness: on the two-transaction sample history the response is
short, sorted descending and tags distinct transactions. -/
theorem get_latest_alerts_spec_witness :
    (get_latest_alerts hW4).2.1.length ≤ 10 ∧
    List.Pairwise (fun a b : AlertEvent => b.timestamp ≤ a.timestamp)
      (get_latest_alerts hW4).2.1 ∧
    ((get_latest_alerts hW4).2.1.map AlertEvent.tx_tag).Nodup :=
  ⟨(get_latest_alerts_spec hW4 (by decide)).1,
   (get_latest_alerts_spec hW4 (by decide)).2.1,
   (get_latest_alerts_spec hW4 (by decide)).2.2.2⟩

/-! ### Positivity of stored buy prices (C10) -/

theorem round2_nonneg {p : ℚ} (hp : 0 < p) : 0 ≤ round2 p := by
  unfold round2
  have h1 : (0:ℤ) ≤ round (p * 100) := by
    rw [round_eq]
    refine Int.floor_nonneg.mpr ?_
    nlinarith
  have h2 : (0:ℚ) ≤ ((round (p * 100) : ℤ) : ℚ) := by exact_mod_cast h1
  exact div_nonneg h2 (by norm_num)

theorem glpMethod4_nonneg {d : ProviderData} {q : ℚ} (h : glpMethod4 d = some q) : 0 ≤ q := by
  cases hd : d.hist_1d_lastClose with
  | none => simp [glpMethod4, hd] at h
  | some p =>
    simp only [glpMethod4, hd] at h
    by_cases hp : p > 0
    · rw [if_pos hp] at h
      injection h with h
      rw [← h]
      exact round2_nonneg hp
    · rw [if_neg hp] at h
      cases h

theorem glpMethod3_nonneg {d : ProviderData} {q : ℚ} (h : glpMethod3 d = some q) : 0 ≤ q := by
  cases hd : d.hist_1m_lastClose with
  | none =>
    simp only [glpMethod3, hd] at h
    exact glpMethod4_nonneg h
  | some p =>
    simp only [glpMethod3, hd] at h
    by_cases hp : p > 0
    · rw [if_pos hp] at h
      injection h with h
      rw [← h]
      exact round2_nonneg hp
    · rw [if_neg hp] at h
      exact glpMethod4_nonneg h

theorem glpMethod2b_nonneg {d : ProviderData} {q : ℚ} (h : glpMethod2b d = some q) : 0 ≤ q := by
  cases hd : d.info_regularMarketPrice with
  | none =>
    simp only [glpMethod2b, hd] at h
    exact glpMethod3_nonneg h
  | some r =>
    simp only [glpMethod2b, hd] at h
    by_cases h0 : r ≠ 0
    · rw [if_pos h0] at h
      by_cases hr : r > 0
      · rw [if_pos hr] at h
        injection h with h
        rw [← h]
        exact round2_nonneg hr
      · rw [if_neg hr] at h
        exact glpMethod3_nonneg h
    · rw [if_neg h0] at h
      exact glpMethod3_nonneg h

theorem glpMethod2_nonneg {d : ProviderData} {q : ℚ} (h : glpMethod2 d = some q) : 0 ≤ q := by
  cases hd : d.info_currentPrice with
  | none =>
    simp only [glpMethod2, hd] at h
    exact glpMethod2b_nonneg h
  | some c =>
    simp only [glpMethod2, hd] at h
    by_cases h0 : c ≠ 0
    · rw [if_pos h0] at h
      by_cases hc : c > 0
      · rw [if_pos hc] at h
        injection h with h
        rw [← h]
        exact round2_nonneg hc
      · rw [if_neg hc] at h
        exact glpMethod3_nonneg h
    · rw [if_neg h0] at h
      exact glpMethod2b_nonneg h

theorem get_live_price_nonneg {d : ProviderData} {q : ℚ}
    (h : get_live_price d = some q) : 0 ≤ q := by
  cases hd : d.fast_last_price with
  | none =>
    simp only [get_live_price, hd] at h
    exact glpMethod2_nonneg h
  | some p =>
    simp only [get_live_price, hd] at h
    by_cases hp : p > 0
    · rw [if_pos hp] at h
      injection h with h
      rw [← h]
      exact round2_nonneg hp
    · rw [if_neg hp] at h
      exact glpMethod2_nonneg h

theorem pfUpdate_preserves (P : Position → Prop) (l : PortfolioStore) (k : Nat)
    (f : Position → Position) (hf : ∀ pos, P pos → P (f pos))
    (hl : ∀ e ∈ l, P e.2) : ∀ e ∈ pfUpdate l k f, P e.2 := by
  induction l with
  | nil => intro e he; cases he
  | cons a rest ih =>
    intro e he
    rw [show pfUpdate (a :: rest) k f
          = (if a.1 = k then (a.1, f a.2) else a) :: pfUpdate rest k f from rfl] at he
    rcases List.mem_cons.mp he with heq | hr
    · by_cases hk : a.1 = k
      · rw [heq, if_pos hk]
        exact hf a.2 (hl a (List.mem_cons_self a rest))
      · rw [heq, if_neg hk]
        exact hl a (List.mem_cons_self a rest)
    · exact ih (fun e0 he0 => hl e0 (List.mem_cons_of_mem a he0)) e hr

theorem buy_stock_ok {lookup : Option ℚ} {now : Nat} {symbol : String} {st : St}
    {txId : Nat} {st' : St}
    (h : buy_stock lookup now symbol st = (Except.ok txId, st')) :
    ∃ p, lookup = some p ∧ p ≠ 0 ∧ pyUpper symbol ∈ WATCHLIST ∧
      txId = st.portfolio.length + 1 ∧
      st' = { st with portfolio :=
        st.portfolio ++ [(st.portfolio.length + 1, newPosition (pyUpper symbol) p now)] } := by
  by_cases hw : pyUpper symbol ∈ WATCHLIST
  · cases lookup with
    | none => simp [buy_stock, hw] at h
    | some p =>
      by_cases hp : p = 0
      · simp [buy_stock, hw, hp] at h
      · simp only [buy_stock, hw, if_pos, if_neg hp, Prod.mk.injEq, Except.ok.injEq] at h
        obtain ⟨h1, h2⟩ := h
        exact ⟨p, rfl, hp, hw, h1.symm, h2.symm⟩
  · simp [buy_stock, hw] at h

/-- Provider data for the witness: a fast quote of 100. -/
def sampleProvider : ProviderData :=
  { fast_last_price := some 100, info_currentPrice := none, info_regularMarketPrice := none,
    hist_1m_lastClose := none, hist_1d_lastClose := none }

/-- C10 (amended): every price the lookup returns is nonnegative — each
fallback strategy is accepted only with a strictly positive raw price,
though rounding may collapse it to 0 — and since `buy_stock` additionally
rejects a falsy (absent or zero) execution price, every position stored
in any reachable portfolio has a strictly positive `buy_price`, the
divisor of every `percent_change` computation (monitor tick, portfolio
view, price-simulation endpoint). -/
theorem lookup_nonneg_buy_price_positive :
    (∀ d q, get_live_price d = some q → 0 ≤ q) ∧
    (∀ st, Reachable st → ∀ e ∈ st.portfolio, 0 < e.2.buy_price) := by
  constructor
  · intro d q h
    exact get_live_price_nonneg h
  · intro st h
    induction h with
    | init => intro e he; cases he
    | @buy st d now sym tx st' hst heq ih =>
      obtain ⟨p, hl, hp, hw, htx, hst'⟩ := buy_stock_ok heq
      subst hst'
      intro e he
      rcases List.mem_append.mp he with hold | hnew
      · exact ih e hold
      · rw [List.mem_singleton] at hnew
        subst hnew
        have h0 : 0 ≤ p := get_live_price_nonneg hl
        exact lt_of_le_of_ne h0 (Ne.symm hp)
    | @tick st env now hst ih =>
      intro e he
      cases hie : st.portfolio.isEmpty with
      | true =>
        rw [show monitor_market (fun s => get_live_price (env s)) now st = st from by
              simp [monitor_market, hie]] at he
        exact ih e he
      | false =>
        rw [monitor_portfolio _ now hie] at he
        rcases List.mem_map.mp he with ⟨a, ha, rfl⟩
        have hb := (tickPos_fields (fun s => get_live_price (env s)) now a.2).1
        simpa [hb] using ih a ha
    | @reset st tx st' hst heq ih =>
      cases hg : pfGet st.portfolio tx with
      | none => simp [reset_alert, hg] at heq
      | some pos =>
        simp only [reset_alert, hg, Prod.mk.injEq] at heq
        obtain ⟨-, h2⟩ := heq
        subst h2
        intro e he
        exact pfUpdate_preserves (fun pos => 0 < pos.buy_price) st.portfolio tx
          (fun pos =>
            { pos with alert_sent := false, alert_type := none, alert_triggered_at := none })
          (fun _ hp => hp) ih e he
    | @simulate st tx p pc st' hst heq ih =>
      cases hg : pfGet st.portfolio tx with
      | none => simp [simulate_price_movement, hg] at heq
      | some pos =>
        simp only [simulate_price_movement, hg, Prod.mk.injEq] at heq
        obtain ⟨-, h2⟩ := heq
        subst h2
        intro e he
        exact pfUpdate_preserves (fun pos => 0 < pos.buy_price) st.portfolio tx
          (fun q => { q with simulated_current_price := some p, alert_sent := false })
          (fun _ hp => hp) ih e he
    | @clearSim st tx st' hst heq ih =>
      cases hg : pfGet st.portfolio tx with
      | none => simp [clear_simulation, hg] at heq
      | some pos =>
        simp only [clear_simulation, hg, Prod.mk.injEq] at heq
        obtain ⟨-, h2⟩ := heq
        subst h2
        intro e he
        exact pfUpdate_preserves (fun pos => 0 < pos.buy_price) st.portfolio tx
          (fun q => { q with simulated_current_price := none })
          (fun _ hp => hp) ih e he
    | @latest st hst ih =>
      intro e he
      exact ih e he

/-- C10 witness: a looked-up price of 100 is nonnegative, and the position
bought at it in a reachable state has positive buy price. -/
theorem lookup_nonneg_buy_price_positive_witness :
    (0:ℚ) ≤ 100 ∧ 0 < (newPosition "TCS.NS" 100 0).buy_price := by
  have hg : get_live_price sampleProvider = some 100 := by
    norm_num [get_live_price, sampleProvider, round2, round_eq]
  have hb : buy_stock (get_live_price sampleProvider) 0 "TCS.NS" ⟨[], []⟩
      = (Except.ok 1, ⟨[(1, newPosition "TCS.NS" 100 0)], []⟩) := by
    rw [hg]
    exact rfl
  exact ⟨lookup_nonneg_buy_price_positive.1 sampleProvider 100 hg,
    lookup_nonneg_buy_price_positive.2 ⟨[(1, newPosition "TCS.NS" 100 0)], []⟩
      (Reachable.buy Reachable.init hb) (1, newPosition "TCS.NS" 100 0)
      (List.mem_singleton.mpr rfl)⟩

end StockSim
